import Mathlib

/-!
Verification of the opportunity-detection and reporting engine of this
repository (src/bot.py together with src/technical_analysis.py), as a shallow
embedding in Lean 4.

Conventions of the embedding:
* pandas price frames become `List Bar` (one `Bar` per row, columns Open, High,
  Low, Close, Volume become the fields of `Bar`);
* machine floats become exact rationals `ℚ`; Python's `round(x, 2)` (round half
  to even) becomes `round2`;
* a pandas operation that raises (`iloc` out of bounds, division by zero)
  becomes the `Except`-error branch of the embedded function;
* a pandas NaN produced by an incomplete rolling window becomes `Option.none`,
  and comparisons against it are `false`, matching NaN comparison semantics.
-/

/-- `iloc l k` models `series.iloc[-(k+1)]` in pandas: the `k`-th element
counted from the end, raising (error) when the series is too short. -/
def iloc {α : Type} (l : List α) (k : ℕ) : Except Unit α :=
  if h : k < l.length then .ok (l.get ⟨l.length - 1 - k, by omega⟩) else .error ()

/-- Maximum of a list of rationals, `none` on the empty list (pandas
`series.max()` is NaN on an empty series). -/
def listMax (l : List ℚ) : Option ℚ :=
  l.foldr (fun x acc => match acc with | none => some x | some m => some (max x m)) none

/-- Minimum of a list of rationals, `none` on the empty list. -/
def listMin (l : List ℚ) : Option ℚ :=
  l.foldr (fun x acc => match acc with | none => some x | some m => some (min x m)) none

/-- Arithmetic mean of a list, `none` on the empty list (pandas
`series.mean()` is NaN on an empty series). -/
def mean (l : List ℚ) : Option ℚ :=
  if l.isEmpty then none else some (l.sum / l.length)

/-- `rollingMax w l` models `series.rolling(w).max()`: at each position the
maximum of the last `w` entries, `none` (NaN) while fewer than `w` entries are
available. -/
def rollingMax (w : ℕ) (l : List ℚ) : List (Option ℚ) :=
  (List.range l.length).map fun i =>
    if w ≤ i + 1 then listMax ((l.take (i + 1)).drop (i + 1 - w)) else none

/-- Mean of the last `w` entries, `none` when fewer than `w` entries exist;
models the last entry of `series.rolling(w).mean()`. -/
def rollingMeanLast (w : ℕ) (l : List ℚ) : Option ℚ :=
  if w = 0 then none
  else if l.length < w then none
  else some ((l.drop (l.length - w)).sum / (w : ℚ))

/-- Consecutive differences; models `series.diff()` with the leading NaN row
removed (`diffs l` has length `l.length - 1`). -/
def diffs : List ℚ → List ℚ
  | [] => []
  | [_] => []
  | x :: y :: rest => (y - x) :: diffs (y :: rest)

/-- Models `series.diff().where(cond, 0)`: a full-length delta series whose
leading NaN entry has been replaced by `0` (in pandas, `where` replaces the
leading NaN because `NaN > 0` is `False`). -/
def paddedDiffs (l : List ℚ) : List ℚ :=
  match l with
  | [] => []
  | _ :: _ => 0 :: diffs l

/-- Round half to even at integer precision, as Python's `round` does. -/
def roundHalfEven (q : ℚ) : ℤ :=
  if q - ⌊q⌋ < 1/2 then ⌊q⌋
  else if 1/2 < q - ⌊q⌋ then ⌊q⌋ + 1
  else if 2 ∣ ⌊q⌋ then ⌊q⌋ else ⌊q⌋ + 1

/-- Python's `round(x, 2)`: round half to even at two decimal places. -/
def round2 (q : ℚ) : ℚ := (roundHalfEven (100 * q) : ℚ) / 100

/-- `ewmFrom α prev xs` continues an exponentially weighted mean with smoothing
factor `α` from the accumulated value `prev`. -/
def ewmFrom (α : ℚ) (prev : ℚ) : List ℚ → List ℚ
  | [] => []
  | x :: xs => ((1 - α) * prev + α * x) :: ewmFrom α ((1 - α) * prev + α * x) xs

/-- `ewm α l` models `series.ewm(span=s, adjust=False).mean()` with
`α = 2 / (s + 1)`: `y₀ = x₀`, `yₜ = (1-α)·yₜ₋₁ + α·xₜ`. -/
def ewm (α : ℚ) : List ℚ → List ℚ
  | [] => []
  | x :: xs => x :: ewmFrom α x xs

/-- The last value of the exponentially weighted mean of a series. -/
def emaLast (α : ℚ) (l : List ℚ) : Option ℚ := (ewm α l).getLast?

/-- One row of a yfinance download: the Open, High, Low, Close and Volume
columns. -/
structure Bar where
  openPrice : ℚ
  highPrice : ℚ
  lowPrice : ℚ
  closePrice : ℚ
  volume : ℚ
deriving DecidableEq

/-- A price frame: the ordered rows returned by `yf.download`. -/
abbrev Frame := List Bar

def closes (data : Frame) : List ℚ := data.map Bar.closePrice
def opens (data : Frame) : List ℚ := data.map Bar.openPrice
def highs (data : Frame) : List ℚ := data.map Bar.highPrice
def lows (data : Frame) : List ℚ := data.map Bar.lowPrice
def volumes (data : Frame) : List ℚ := data.map Bar.volume

/-- NaN-aware strict comparison: `gtO a b` is `a > b` with `b` possibly NaN,
in which case the comparison is `false`. -/
def gtO (a : ℚ) (b : Option ℚ) : Bool :=
  match b with
  | some b => decide (b < a)
  | none => false

/-- `SaudiStockBot.detect_golden_cross`:
`ema50.iloc[-1] > ema200.iloc[-1] and ema50.iloc[-2] <= ema200.iloc[-2]`
with `ema50 = Close.ewm(span=50, adjust=False).mean()` (`α = 2/51`) and
`ema200 = Close.ewm(span=200, adjust=False).mean()` (`α = 2/201`). -/
def detect_golden_cross (data : Frame) : Except Unit Bool := do
  let ema50 := ewm (2/51) (closes data)
  let ema200 := ewm (2/201) (closes data)
  let a ← iloc ema50 0
  let b ← iloc ema200 0
  let a2 ← iloc ema50 1
  let b2 ← iloc ema200 1
  pure (decide (b < a) && decide (a2 ≤ b2))

/-- `SaudiStockBot.detect_earthquake`:
`Close.iloc[-1] > High.rolling(14).max().iloc[-2] and Volume.iloc[-1] > Volume.mean() * 2`. -/
def detect_earthquake (data : Frame) : Except Unit Bool := do
  let c ← iloc (closes data) 0
  let m ← iloc (rollingMax 14 (highs data)) 1
  let v ← iloc (volumes data) 0
  pure (gtO c m && gtO v ((mean (volumes data)).map (fun x => x * 2)))

/-- `SaudiStockBot.detect_volcano`:
`Close.iloc[-1] > Low.min() + 0.618 * (High.max() - Low.min())`. -/
def detect_volcano (data : Frame) : Except Unit Bool := do
  let c ← iloc (closes data) 0
  pure (match listMax (highs data), listMin (lows data) with
    | some hi, some lo => decide (lo + (618/1000) * (hi - lo) < c)
    | _, _ => false)

/-- `SaudiStockBot.detect_lightning`:
`High.iloc[-1] - Low.iloc[-1] > Close.iloc[-2] * 0.05`. -/
def detect_lightning (data : Frame) : Except Unit Bool := do
  let hi ← iloc (highs data) 0
  let lo ← iloc (lows data) 0
  let c2 ← iloc (closes data) 1
  pure (decide (c2 * (5/100) < hi - lo))

/-- The `Opportunity` ORM model of src/bot.py: symbol, strategy, entry price,
target list, stop loss, 0-based current target index, and status
(`"active"`, `"completed"` or `"stopped"`). -/
structure Opportunity where
  symbol : String
  strategy : String
  entry_price : ℚ
  targets : List ℚ
  stop_loss : ℚ
  current_target : ℕ
  status : String
deriving DecidableEq

/-- `SaudiStockBot.calculate_targets`: percentage steps above entry, rounded to
two decimals; an unknown strategy yields the empty list. -/
def calculate_targets (strategy : String) (entry : ℚ) : List ℚ :=
  if strategy = "golden" then
    ([1, 2, 3, 4] : List ℚ).map (fun i => round2 (entry * (1 + i * (5/100))))
  else if strategy = "earthquake" then
    ([1, 2] : List ℚ).map (fun i => round2 (entry * (1 + i * (8/100))))
  else if strategy = "volcano" then
    ([1, 2, 3, 4, 5] : List ℚ).map (fun i => round2 (entry * (1 + i * (1/10))))
  else if strategy = "lightning" then
    ([1, 2] : List ℚ).map (fun i => round2 (entry * (1 + i * (7/100))))
  else []

/-- `SaudiStockBot.calculate_stop_loss`: `Low.iloc[-2] * 0.98` for golden
(raising when fewer than two rows exist), otherwise a fraction of the last
close. -/
def calculate_stop_loss (strategy : String) (data : Frame) : Except Unit ℚ :=
  if strategy = "golden" then do
    let x ← iloc (lows data) 1
    pure (x * (98/100))
  else if strategy = "earthquake" then do
    let x ← iloc (closes data) 0
    pure (x * (95/100))
  else do
    let x ← iloc (closes data) 0
    pure (x * (97/100))

/-- `SaudiStockBot.create_opportunity`: reads the entry price and stop loss
from the frame, computes the targets and unconditionally inserts one new
Opportunity with default index 0 and status `"active"`; its internal
`try/except` means that a raising read leaves the store unchanged. The
function performs no lookup of existing opportunities. -/
def create_opportunity (symbol strategy : String) (data : Frame)
    (st : List Opportunity) : List Opportunity :=
  match iloc (closes data) 0, calculate_stop_loss strategy data with
  | .ok entry, .ok sl =>
      st ++ [{ symbol := symbol, strategy := strategy, entry_price := entry,
               targets := calculate_targets strategy entry, stop_loss := sl,
               current_target := 0, status := "active" }]
  | _, _ => st

/-- The number of opportunities in the store that are `"active"` for the given
(symbol, strategy) pair. -/
def countActive (st : List Opportunity) (symbol strategy : String) : ℕ :=
  (st.filter (fun o =>
    o.symbol == symbol && o.strategy == strategy && o.status == "active")).length

/-- One symbol's portion of `check_opportunities`: run the four detectors in
source order, creating an opportunity after each detector that fires.  The
second component records whether the symbol was processed to completion
(`false` when a detector raised, which aborts the whole sweep). -/
def sweepSymbol (symbol : String) (data : Frame) (st : List Opportunity) :
    List Opportunity × Bool :=
  match detect_golden_cross data with
  | .error _ => (st, false)
  | .ok g =>
    let st1 := if g then create_opportunity symbol "golden" data st else st
    match detect_earthquake data with
    | .error _ => (st1, false)
    | .ok e =>
      let st2 := if e then create_opportunity symbol "earthquake" data st1 else st1
      match detect_volcano data with
      | .error _ => (st2, false)
      | .ok v =>
        let st3 := if v then create_opportunity symbol "volcano" data st2 else st2
        match detect_lightning data with
        | .error _ => (st3, false)
        | .ok lg => (if lg then create_opportunity symbol "lightning" data st3 else st3, true)

/-- The loop of `SaudiStockBot.check_opportunities` over a symbol list.  The
single `try/except` wraps the whole loop in the source, so a raised download
error (or a raising detector) ends the sweep: the remaining symbols are
neither fetched nor evaluated.  An empty frame is skipped with `continue`. -/
def check_opportunities_go (fetch : String → Except Unit Frame) :
    List String → List Opportunity → List Opportunity
  | [], st => st
  | s :: rest, st =>
    match fetch s with
    | .error _ => st
    | .ok data =>
      if data.isEmpty then check_opportunities_go fetch rest st
      else
        match sweepSymbol s data st with
        | (st2, true) => check_opportunities_go fetch rest st2
        | (st2, false) => st2

/-- The fixed symbol universe of src/bot.py. -/
def STOCK_SYMBOLS : List String := ["1211.SR", "2222.SR", "3030.SR", "4200.SR"]

/-- `SaudiStockBot.check_opportunities`, parameterized by the market data
provider (`yf.download` becomes `fetch`; raising becomes `.error`). -/
def check_opportunities (fetch : String → Except Unit Frame)
    (st : List Opportunity) : List Opportunity :=
  check_opportunities_go fetch STOCK_SYMBOLS st

/-- One symbol's body in `SaudiStockBot.get_top_movers`: skip when the fetch
raises (per-symbol `try/except`), when fewer than two rows exist
(`continue`), or when `Open.iloc[0]` is zero (the division raises and is
caught); otherwise produce `(symbol, round(change, 2))` with
`change = (Close.iloc[-1] - Open.iloc[0]) / Open.iloc[0] * 100`. -/
def moverFor (fetch : String → Except Unit Frame) (s : String) :
    Option (String × ℚ) :=
  match fetch s with
  | .error _ => none
  | .ok data =>
    if data.length < 2 then none
    else
      match iloc (closes data) 0, (opens data).head? with
      | .ok cl, some o0 =>
          if o0 = 0 then none
          else some (s, round2 ((cl - o0) / o0 * 100))
      | _, _ => none

/-- `SaudiStockBot.get_top_movers` over an explicit symbol universe:
`sorted(movers, key=lambda x: x[1], reverse=True)`.  Python's sort is stable
(ties keep list order even with `reverse=True`), so it is modelled by a stable
insertion sort under the reversed comparison on the percent change. -/
def get_top_movers_with (symbols : List String)
    (fetch : String → Except Unit Frame) : List (String × ℚ) :=
  (symbols.filterMap (moverFor fetch)).insertionSort
    (fun a b : String × ℚ => b.2 ≤ a.2)

/-- `SaudiStockBot.get_top_movers` on the fixed `STOCK_SYMBOLS` universe. -/
def get_top_movers (fetch : String → Except Unit Frame) : List (String × ℚ) :=
  get_top_movers_with STOCK_SYMBOLS fetch

/-- The "top 5" slice `top_gainers[:5]` of `send_daily_report`. -/
def daily_report_top (l : List (String × ℚ)) : List (String × ℚ) := l.take 5

/-- The "bottom 5" slice `top_gainers[-5:]` of `send_daily_report`
(`l[-5:]` in Python is the whole list when it has fewer than five entries). -/
def daily_report_bottom (l : List (String × ℚ)) : List (String × ℚ) :=
  l.drop (l.length - 5)

/-- The per-strategy booleans inside a group's JSON settings blob. -/
structure StrategyFlags where
  golden : Bool
  earthquake : Bool
  volcano : Bool
  lightning : Bool
deriving DecidableEq

/-- The per-cadence report booleans inside a group's JSON settings blob. -/
structure ReportFlags where
  hourly : Bool
  daily : Bool
  weekly : Bool
deriving DecidableEq

/-- A group's JSON settings blob (the security block is irrelevant to
delivery gating and omitted). -/
structure GroupSettings where
  reports : ReportFlags
  strategies : StrategyFlags
deriving DecidableEq

/-- The `Group` ORM model: chat id, approval flag and settings blob (named
`GroupModel` here because `Group` is taken by Mathlib). -/
structure GroupModel where
  chat_id : String
  is_approved : Bool
  settings : GroupSettings
deriving DecidableEq

/-- `settings['strategies'][name]` as JSON lookup: `none` for an unknown
strategy name (the SQL boolean of a missing JSON key is null, which the
delivery filter treats as not enabled). -/
def strategyFlag (s : StrategyFlags) : String → Option Bool
  | "golden" => some s.golden
  | "earthquake" => some s.earthquake
  | "volcano" => some s.volcano
  | "lightning" => some s.lightning
  | _ => none

/-- The delivery set of `SaudiStockBot.send_alert_to_groups`: groups with
`is_approved == True` and the opportunity's strategy enabled in settings. -/
def send_alert_recipients (groups : List GroupModel) (strategy : String) : List GroupModel :=
  groups.filter (fun g =>
    g.is_approved && (strategyFlag g.settings.strategies strategy).getD false)

/-- The delivery set of `SaudiStockBot.send_daily_report`: groups with
`is_approved == True` and the daily report enabled. -/
def send_daily_recipients (groups : List GroupModel) : List GroupModel :=
  groups.filter (fun g => g.is_approved && g.settings.reports.daily)

/-- The delivery set of `SaudiStockBot.send_weekly_report`: groups with
`is_approved == True` and the weekly report enabled. -/
def send_weekly_recipients (groups : List GroupModel) : List GroupModel :=
  groups.filter (fun g => g.is_approved && g.settings.reports.weekly)

/-- Error outcomes of the guarded RSI embedding: `insufficientData` stands for
a NaN result (incomplete rolling window), `divByZero` for the unguarded
division `gain / loss` hitting a zero average loss, which exact arithmetic
cannot perform. -/
inductive RsiErr where
  | insufficientData
  | divByZero
deriving DecidableEq

/-- `SaudiStockBot.calculate_rsi` (and `calculate_rsi` of
src/technical_analysis.py evaluated at the last position): gains and losses
from the padded delta series, `period`-rolling means, then
`100 - 100 / (1 + gain / loss)`.  The division is guarded here: a zero average
loss is the `divByZero` error branch. -/
def calculate_rsi (close : List ℚ) (period : ℕ) : Except RsiErr ℚ :=
  let g := (paddedDiffs close).map (fun d => if 0 < d then d else 0)
  let l := (paddedDiffs close).map (fun d => if d < 0 then -d else 0)
  match rollingMeanLast period g, rollingMeanLast period l with
  | some ag, some al =>
      if al = 0 then .error .divByZero
      else .ok (100 - 100 / (1 + ag / al))
  | _, _ => .error .insufficientData

/-- The level dictionary returned by `calculate_fib_levels` of
src/technical_analysis.py, keyed 0.236, 0.382, 0.5, 0.618, 1.0. -/
structure FibLevels where
  l236 : ℚ
  l382 : ℚ
  l500 : ℚ
  l618 : ℚ
  l1000 : ℚ
deriving DecidableEq

/-- `calculate_fib_levels(high, low)` of src/technical_analysis.py. -/
def calculate_fib_levels (high low : ℚ) : FibLevels :=
  let diff := high - low
  { l236 := low + diff * (236/1000)
    l382 := low + diff * (382/1000)
    l500 := low + diff * (1/2)
    l618 := low + diff * (618/1000)
    l1000 := high }

/-- Modelled from the spec: src/bot.py declares the `Opportunity` model and the
scheduler but contains no target-tracking job at all (`run` schedules only
detection, reports, query resets and penalty checks), so the tracking tick is
missing from src/.  Following spec section 4.3: for an `active` opportunity,
if the current price reaches `targets[current_target_index]` the index
advances; if it now exceeds the last target the opportunity becomes
`completed` and exactly one successor is synthesized (same symbol and
strategy, entry price the final achieved target, fresh targets from the
creation rule, index 0, status `active`); otherwise a price at or below the
stop loss makes it `stopped`; target-hit is checked before stop-loss.  `sl`
is the successor's stop loss, derived from the snapshot as at creation. -/
def track_tick (price sl : ℚ) (opp : Opportunity) :
    Opportunity × Option Opportunity :=
  if opp.status = "active" then
    match opp.targets.get? opp.current_target with
    | some t =>
      if t ≤ price then
        if opp.targets.length ≤ opp.current_target + 1 then
          ({ opp with current_target := opp.current_target + 1, status := "completed" },
           some { symbol := opp.symbol, strategy := opp.strategy, entry_price := t,
                  targets := calculate_targets opp.strategy t, stop_loss := sl,
                  current_target := 0, status := "active" })
        else ({ opp with current_target := opp.current_target + 1 }, none)
      else if price ≤ opp.stop_loss then
        ({ opp with status := "stopped" }, none)
      else (opp, none)
    | none => (opp, none)
  else (opp, none)

/-! ### Helper lemmas -/

theorem iloc_isOk {α : Type} (l : List α) (k : ℕ) (h : k < l.length) :
    ∃ x, iloc l k = .ok x :=
  ⟨_, dif_pos h⟩

theorem except_bind_ok {ε α β : Type} (a : α) (f : α → Except ε β) :
    ((Except.ok a : Except ε α) >>= f) = f a := rfl

theorem except_bind_err {ε α β : Type} (e : ε) (f : α → Except ε β) :
    ((Except.error e : Except ε α) >>= f) = .error e := rfl

theorem roundHalfEven_sub_le (q : ℚ) : |((roundHalfEven q : ℤ) : ℚ) - q| ≤ 1/2 := by
  have h0 : (0 : ℚ) ≤ q - ⌊q⌋ := by
    have := Int.floor_le q
    linarith
  have h1 : q - ⌊q⌋ < 1 := by
    have := Int.lt_floor_add_one q
    linarith
  unfold roundHalfEven
  split_ifs <;> rw [abs_le] <;> constructor <;> push_cast <;> linarith

theorem round2_sub_le (q : ℚ) : |round2 q - q| ≤ 1/200 := by
  have h := roundHalfEven_sub_le (100 * q)
  rw [abs_le] at h ⊢
  unfold round2
  obtain ⟨h1, h2⟩ := h
  constructor <;> linarith

theorem round2_lt {a b : ℚ} (h : 1/100 < b - a) : round2 a < round2 b := by
  have ha := round2_sub_le a
  have hb := round2_sub_le b
  rw [abs_le] at ha hb
  linarith

/-! ### Claim theorems -/

/-- Claim C10: for high ≥ low the Fibonacci levels are ordered by retracement
fraction, the 1.0 level equals the high, every level lies between low and
high, and the ordering is strict when high > low. -/
theorem C10_fib_levels_ordered (high low : ℚ) (h : low ≤ high) :
    (calculate_fib_levels high low).l236 ≤ (calculate_fib_levels high low).l382 ∧
    (calculate_fib_levels high low).l382 ≤ (calculate_fib_levels high low).l500 ∧
    (calculate_fib_levels high low).l500 ≤ (calculate_fib_levels high low).l618 ∧
    (calculate_fib_levels high low).l618 ≤ (calculate_fib_levels high low).l1000 ∧
    (calculate_fib_levels high low).l1000 = high ∧
    (low ≤ (calculate_fib_levels high low).l236 ∧
      (calculate_fib_levels high low).l236 ≤ high) ∧
    (low ≤ (calculate_fib_levels high low).l382 ∧
      (calculate_fib_levels high low).l382 ≤ high) ∧
    (low ≤ (calculate_fib_levels high low).l500 ∧
      (calculate_fib_levels high low).l500 ≤ high) ∧
    (low ≤ (calculate_fib_levels high low).l618 ∧
      (calculate_fib_levels high low).l618 ≤ high) ∧
    (low ≤ (calculate_fib_levels high low).l1000 ∧
      (calculate_fib_levels high low).l1000 ≤ high) ∧
    (low < high →
      (calculate_fib_levels high low).l236 < (calculate_fib_levels high low).l382 ∧
      (calculate_fib_levels high low).l382 < (calculate_fib_levels high low).l500 ∧
      (calculate_fib_levels high low).l500 < (calculate_fib_levels high low).l618 ∧
      (calculate_fib_levels high low).l618 < (calculate_fib_levels high low).l1000) := by
  dsimp only [calculate_fib_levels]
  refine ⟨by linarith, by linarith, by linarith, by linarith, rfl,
    ⟨by linarith, by linarith⟩, ⟨by linarith, by linarith⟩,
    ⟨by linarith, by linarith⟩, ⟨by linarith, by linarith⟩,
    ⟨by linarith, by linarith⟩, fun hlt => ⟨by linarith, by linarith, by linarith, by linarith⟩⟩

/-- Witness for C10 at high 3, low 1. -/
theorem C10_witness :
    (calculate_fib_levels 3 1).l236 ≤ (calculate_fib_levels 3 1).l382 ∧
    (calculate_fib_levels 3 1).l382 ≤ (calculate_fib_levels 3 1).l500 ∧
    (calculate_fib_levels 3 1).l500 ≤ (calculate_fib_levels 3 1).l618 ∧
    (calculate_fib_levels 3 1).l618 ≤ (calculate_fib_levels 3 1).l1000 ∧
    (calculate_fib_levels 3 1).l1000 = 3 ∧
    (1 ≤ (calculate_fib_levels 3 1).l236 ∧ (calculate_fib_levels 3 1).l236 ≤ 3) ∧
    (1 ≤ (calculate_fib_levels 3 1).l382 ∧ (calculate_fib_levels 3 1).l382 ≤ 3) ∧
    (1 ≤ (calculate_fib_levels 3 1).l500 ∧ (calculate_fib_levels 3 1).l500 ≤ 3) ∧
    (1 ≤ (calculate_fib_levels 3 1).l618 ∧ (calculate_fib_levels 3 1).l618 ≤ 3) ∧
    (1 ≤ (calculate_fib_levels 3 1).l1000 ∧ (calculate_fib_levels 3 1).l1000 ≤ 3) ∧
    ((1 : ℚ) < 3 →
      (calculate_fib_levels 3 1).l236 < (calculate_fib_levels 3 1).l382 ∧
      (calculate_fib_levels 3 1).l382 < (calculate_fib_levels 3 1).l500 ∧
      (calculate_fib_levels 3 1).l500 < (calculate_fib_levels 3 1).l618 ∧
      (calculate_fib_levels 3 1).l618 < (calculate_fib_levels 3 1).l1000) :=
  C10_fib_levels_ordered 3 1 (by norm_num)

/-- Claim C7: a group whose approval flag is false is in no delivery set:
not in opportunity alerts for any strategy, not in the daily report set, not
in the weekly report set, regardless of its other settings. -/
theorem C7_unapproved_gets_nothing (groups : List GroupModel) (g : GroupModel)
    (strategy : String) (h : g.is_approved = false) :
    g ∉ send_alert_recipients groups strategy ∧
    g ∉ send_daily_recipients groups ∧
    g ∉ send_weekly_recipients groups := by
  refine ⟨fun hm => ?_, fun hm => ?_, fun hm => ?_⟩ <;>
    simp only [send_alert_recipients, send_daily_recipients, send_weekly_recipients,
      List.mem_filter, h, Bool.false_and, Bool.and_eq_true] at hm <;>
    simp at hm

/-- Witness for C7: a concrete unapproved group with every setting enabled. -/
theorem C7_witness :
    (⟨"g1", false, ⟨⟨true, true, true⟩, ⟨true, true, true, true⟩⟩⟩ : GroupModel) ∉
      send_alert_recipients
        [⟨"g1", false, ⟨⟨true, true, true⟩, ⟨true, true, true, true⟩⟩⟩] "golden" ∧
    (⟨"g1", false, ⟨⟨true, true, true⟩, ⟨true, true, true, true⟩⟩⟩ : GroupModel) ∉
      send_daily_recipients
        [⟨"g1", false, ⟨⟨true, true, true⟩, ⟨true, true, true, true⟩⟩⟩] ∧
    (⟨"g1", false, ⟨⟨true, true, true⟩, ⟨true, true, true, true⟩⟩⟩ : GroupModel) ∉
      send_weekly_recipients
        [⟨"g1", false, ⟨⟨true, true, true⟩, ⟨true, true, true, true⟩⟩⟩] :=
  C7_unapproved_gets_nothing _ _ "golden" rfl

/-- Counterexample to claim C8 as stated: at entry price 0 (a price at which
`create_opportunity` happily creates, since nothing validates the entry), the
golden-strategy target list is [0, 0, 0, 0], which is not strictly
increasing. -/
theorem C8_counterexample :
    calculate_targets "golden" 0 = [0, 0, 0, 0] ∧
    ¬ List.Chain' (· < ·) (calculate_targets "golden" 0) := by
  have h0 : round2 0 = 0 := by norm_num [round2, roundHalfEven]
  have ht : calculate_targets "golden" 0 = [0, 0, 0, 0] := by
    simp [calculate_targets, h0]
  refine ⟨ht, fun hc => ?_⟩
  rw [ht] at hc
  simp [List.chain'_cons] at hc

/-- Claim C8 amended: the target list is strictly increasing for every
strategy whenever the entry price exceeds 1/5 — then consecutive raw targets
differ by more than the 0.01 rounding quantum, so rounding to two decimals
preserves strictness.  (At entry 0 all targets coincide, refuting the
unrestricted claim.) -/
theorem C8_amended_targets_strict_mono (strategy : String) (entry : ℚ)
    (h : 1/5 < entry) :
    List.Chain' (· < ·) (calculate_targets strategy entry) := by
  unfold calculate_targets
  split_ifs <;>
    simp only [List.map_cons, List.map_nil, List.chain'_cons, List.chain'_singleton,
      List.chain'_nil, and_true]
  · exact ⟨round2_lt (by nlinarith), round2_lt (by nlinarith), round2_lt (by nlinarith)⟩
  · exact round2_lt (by nlinarith)
  · exact ⟨round2_lt (by nlinarith), round2_lt (by nlinarith), round2_lt (by nlinarith),
      round2_lt (by nlinarith)⟩
  · exact round2_lt (by nlinarith)

/-- Witness for the amended C8 at entry price 1. -/
theorem C8_witness :
    List.Chain' (· < ·) (calculate_targets "golden" 1) :=
  C8_amended_targets_strict_mono "golden" 1 (by norm_num)

theorem diffs_length : ∀ l : List ℚ, (diffs l).length = l.length - 1
  | [] => rfl
  | [_] => rfl
  | x :: y :: rest => by
    simp [diffs, diffs_length (y :: rest)]

theorem paddedDiffs_length (l : List ℚ) : (paddedDiffs l).length = l.length := by
  cases l with
  | nil => rfl
  | cons x xs =>
    simp [paddedDiffs, diffs_length]

/-- Claim C9: whenever the last `period` deltas of the close series are all
non-negative (and enough bars exist for the rolling window), the average loss
is exactly zero, so the unguarded division `gain / loss` is the division by
zero that exact arithmetic cannot perform: the guarded embedding reaches its
`divByZero` error branch. -/
theorem C9_rsi_zero_loss_divzero (close : List ℚ) (period : ℕ)
    (h0 : 0 < period) (hlen : period ≤ close.length)
    (hnn : ∀ d ∈ (diffs close).drop ((diffs close).length - period), 0 ≤ d) :
    calculate_rsi close period = .error .divByZero := by
  have hne : close ≠ [] := by
    intro h
    rw [h] at hlen
    simp at hlen
    omega
  have hpd : paddedDiffs close = 0 :: diffs close := by
    cases close with
    | nil => exact absurd rfl hne
    | cons x xs => rfl
  have hpl : (paddedDiffs close).length = close.length := paddedDiffs_length close
  have hgl : ((paddedDiffs close).map (fun d => if 0 < d then d else 0)).length =
      close.length := by simp [hpl]
  have hll : ((paddedDiffs close).map (fun d => if d < 0 then -d else 0)).length =
      close.length := by simp [hpl]
  -- every entry of the final window of the loss series is zero
  have hdrop : ∀ x ∈ (paddedDiffs close).drop (close.length - period), 0 ≤ x := by
    intro x hx
    rw [hpd] at hx
    rcases Nat.eq_zero_or_pos (close.length - period) with hz | hpos
    · rw [hz, List.drop_zero] at hx
      rcases List.mem_cons.mp hx with rfl | hx'
      · exact le_refl 0
      · refine hnn x ?_
        have : (diffs close).length - period = 0 := by
          rw [diffs_length]
          omega
        rw [this, List.drop_zero]
        exact hx'
    · have hk : close.length - period = (close.length - period - 1) + 1 := by omega
      rw [hk, List.drop_succ_cons] at hx
      refine hnn x ?_
      have : (diffs close).length - period = close.length - period - 1 := by
        rw [diffs_length]
        omega
      rw [this]
      exact hx
  have hsum :
      ((((paddedDiffs close).map (fun d => if d < 0 then -d else 0)).drop
          (close.length - period)).sum : ℚ) = 0 := by
    rw [← List.map_drop]
    refine List.sum_eq_zero ?_
    intro y hy
    obtain ⟨x, hx, rfl⟩ := List.mem_map.mp hy
    have := hdrop x hx
    rw [if_neg (by linarith)]
  have hl : rollingMeanLast period
      ((paddedDiffs close).map (fun d => if d < 0 then -d else 0)) = some 0 := by
    unfold rollingMeanLast
    rw [if_neg (by omega), if_neg (by omega : ¬ _ < _)]
    · rw [hll, hsum]
      simp
  have hg : ∃ v, rollingMeanLast period
      ((paddedDiffs close).map (fun d => if 0 < d then d else 0)) = some v := by
    unfold rollingMeanLast
    rw [if_neg (by omega), if_neg (by omega : ¬ _ < _)]
    exact ⟨_, rfl⟩
  obtain ⟨v, hv⟩ := hg
  simp [calculate_rsi, hv, hl]

/-- Witness for C9: a strictly increasing 15-bar close series with period 14
reaches the division-by-zero branch. -/
theorem C9_witness :
    calculate_rsi [1, 2, 3, 4, 5, 6, 7, 8, 9, 10, 11, 12, 13, 14, 15] 14 =
      .error .divByZero :=
  C9_rsi_zero_loss_divzero _ 14 (by norm_num) (by norm_num) (by norm_num [diffs])

/-- A two-bar frame (flat bar then a rising bar) used by the concrete
counterexamples and witnesses. -/
def twoBarFrame : Frame := [⟨1, 1, 1, 1, 1⟩, ⟨1, 2, 1, 2, 1⟩]

/-- Counterexample to claim C1 as stated: `create_opportunity` performs no
lookup, so creating twice for the same (symbol, strategy) pair yields two
simultaneously active opportunities — the second attempt is not rejected. -/
theorem C1_counterexample :
    countActive
      (create_opportunity "2222.SR" "golden" twoBarFrame
        (create_opportunity "2222.SR" "golden" twoBarFrame []))
      "2222.SR" "golden" = 2 := by
  have h1 : iloc (closes twoBarFrame) 0 = .ok 2 := by
    simp [closes, twoBarFrame, iloc]
  have h2 : calculate_stop_loss "golden" twoBarFrame = .ok (1 * (98/100)) := by
    simp [calculate_stop_loss, lows, twoBarFrame, iloc, except_bind_ok]
  simp [create_opportunity, h1, h2, countActive]

/-- Claim C1 amended: creation is unconditional — whenever the frame has at
least two rows (so that neither the entry-price read nor the golden stop-loss
read raises), each call to `create_opportunity` increases the number of
active opportunities for its (symbol, strategy) pair by exactly one,
regardless of how many are already active. -/
theorem C1_create_appends_active (symbol strategy : String) (data : Frame)
    (st : List Opportunity) (h : 2 ≤ data.length) :
    countActive (create_opportunity symbol strategy data st) symbol strategy =
      countActive st symbol strategy + 1 := by
  have hcl : (closes data).length = data.length := by simp [closes]
  have hlo : (lows data).length = data.length := by simp [lows]
  obtain ⟨e, he⟩ := iloc_isOk (closes data) 0 (by omega)
  obtain ⟨sl, hsl⟩ : ∃ sl, calculate_stop_loss strategy data = .ok sl := by
    unfold calculate_stop_loss
    split_ifs
    · obtain ⟨v, hv⟩ := iloc_isOk (lows data) 1 (by omega)
      exact ⟨v * (98/100), by rw [hv]; rfl⟩
    · exact ⟨e * (95/100), by rw [he]; rfl⟩
    · exact ⟨e * (97/100), by rw [he]; rfl⟩
  simp only [create_opportunity, he, hsl]
  simp [countActive, List.filter_append]

/-- Witness for the amended C1: starting from a store that already holds an
active ("2222.SR", "golden") opportunity, creation still adds another. -/
theorem C1_witness :
    countActive
      (create_opportunity "2222.SR" "golden" twoBarFrame
        [{ symbol := "2222.SR", strategy := "golden", entry_price := 2,
           targets := [], stop_loss := 1, current_target := 0,
           status := "active" }]) "2222.SR" "golden" =
    countActive
      [{ symbol := "2222.SR", strategy := "golden", entry_price := 2,
         targets := [], stop_loss := 1, current_target := 0,
         status := "active" }] "2222.SR" "golden" + 1 :=
  C1_create_appends_active "2222.SR" "golden" twoBarFrame _ (by norm_num [twoBarFrame])

/-- Claim C2: when a tracking tick advances an active opportunity past its
last target (current index at the last target, price at or above it), the
opportunity transitions to `completed` and exactly one successor is produced:
status `active`, current target index 0, the same symbol and strategy, entry
price equal to the final achieved target.  (Settled against the
spec-modelled `track_tick`, since src/bot.py contains no tracking job.) -/
theorem C2_completion_spawns_successor (opp : Opportunity) (price sl tfin : ℚ)
    (hact : opp.status = "active")
    (hidx : opp.current_target + 1 = opp.targets.length)
    (hlast : opp.targets.getLast? = some tfin)
    (hp : tfin ≤ price) :
    (track_tick price sl opp).1.status = "completed" ∧
    (track_tick price sl opp).2 = some
      { symbol := opp.symbol, strategy := opp.strategy, entry_price := tfin,
        targets := calculate_targets opp.strategy tfin, stop_loss := sl,
        current_target := 0, status := "active" } := by
  have hget : opp.targets.get? opp.current_target = some tfin := by
    rw [List.get?_eq_getElem?, show opp.current_target = opp.targets.length - 1 by omega,
      ← List.getLast?_eq_getElem?]
    exact hlast
  unfold track_tick
  rw [if_pos hact, hget]
  simp only [if_pos hp, if_pos (show opp.targets.length ≤ opp.current_target + 1 by omega)]
  simp

/-- Witness for C2: the spec's own scenario — targets [105, 110, 115], index
already at the last target, price 116 — completes and spawns the successor
with entry 115. -/
theorem C2_witness :
    (track_tick 116 95
        ⟨"1211.SR", "golden", 100, [105, 110, 115], 95, 2, "active"⟩).1.status =
      "completed" ∧
    (track_tick 116 95
        ⟨"1211.SR", "golden", 100, [105, 110, 115], 95, 2, "active"⟩).2 =
      some ⟨"1211.SR", "golden", 115, calculate_targets "golden" 115, 95, 0, "active"⟩ :=
  C2_completion_spawns_successor _ 116 95 115 rfl rfl rfl (by norm_num)

theorem ewmFrom_length (α : ℚ) : ∀ (prev : ℚ) (l : List ℚ),
    (ewmFrom α prev l).length = l.length
  | _, [] => rfl
  | prev, x :: xs => by
    simp [ewmFrom, ewmFrom_length α ((1 - α) * prev + α * x) xs]

theorem ewm_length (α : ℚ) (l : List ℚ) : (ewm α l).length = l.length := by
  cases l with
  | nil => rfl
  | cons x xs => simp [ewm, ewmFrom_length]

theorem rollingMax_length (w : ℕ) (l : List ℚ) :
    (rollingMax w l).length = l.length := by
  simp [rollingMax]

/-- A one-bar frame: the frame shape that crashes three of the four
detectors. -/
def oneBarFrame : Frame := [⟨1, 2, 1, 2, 1⟩]

/-- Counterexample to claim C4 as stated: on a single-bar snapshot the
trend-cross, breakout and range-expansion detectors all raise (their
`iloc[-2]` reads are out of bounds) instead of reporting no detection; only
the retracement detector returns a boolean. -/
theorem C4_counterexample :
    detect_golden_cross oneBarFrame = .error () ∧
    detect_earthquake oneBarFrame = .error () ∧
    detect_lightning oneBarFrame = .error () ∧
    detect_volcano oneBarFrame = .ok true := by
  refine ⟨?_, ?_, ?_, ?_⟩
  · simp [detect_golden_cross, oneBarFrame, closes, ewm, ewmFrom, iloc, except_bind_ok,
      except_bind_err]
  · simp [detect_earthquake, oneBarFrame, closes, highs, volumes, rollingMax, iloc,
      except_bind_ok, except_bind_err]
  · simp [detect_lightning, oneBarFrame, highs, lows, closes, iloc, except_bind_ok]
  · simp only [detect_volcano, oneBarFrame, closes, highs, lows, List.map_cons,
      List.map_nil, iloc]
    norm_num [listMax, listMin, except_bind_ok]

/-- Claim C4 amended: with at least two bars no detector raises (each returns
a boolean; incomplete rolling windows inside compare as NaN, i.e. no
detection); with a single bar the three detectors that read the
second-to-last bar raise, as the counterexample shows. -/
theorem C4_two_bars_no_raise (data : Frame) (h : 2 ≤ data.length) :
    (∃ b, detect_golden_cross data = .ok b) ∧
    (∃ b, detect_earthquake data = .ok b) ∧
    (∃ b, detect_volcano data = .ok b) ∧
    (∃ b, detect_lightning data = .ok b) := by
  have hcl : (closes data).length = data.length := by simp [closes]
  have hhi : (highs data).length = data.length := by simp [highs]
  have hlo : (lows data).length = data.length := by simp [lows]
  have hvo : (volumes data).length = data.length := by simp [volumes]
  refine ⟨?_, ?_, ?_, ?_⟩
  · obtain ⟨a, ha⟩ := iloc_isOk (ewm (2/51) (closes data)) 0 (by rw [ewm_length]; omega)
    obtain ⟨b, hb⟩ := iloc_isOk (ewm (2/201) (closes data)) 0 (by rw [ewm_length]; omega)
    obtain ⟨a2, ha2⟩ := iloc_isOk (ewm (2/51) (closes data)) 1 (by rw [ewm_length]; omega)
    obtain ⟨b2, hb2⟩ := iloc_isOk (ewm (2/201) (closes data)) 1 (by rw [ewm_length]; omega)
    exact ⟨_, by rw [detect_golden_cross, ha, except_bind_ok, hb, except_bind_ok,
      ha2, except_bind_ok, hb2, except_bind_ok]; rfl⟩
  · obtain ⟨c, hc⟩ := iloc_isOk (closes data) 0 (by omega)
    obtain ⟨m, hm⟩ := iloc_isOk (rollingMax 14 (highs data)) 1
      (by rw [rollingMax_length]; omega)
    obtain ⟨v, hv⟩ := iloc_isOk (volumes data) 0 (by omega)
    exact ⟨_, by rw [detect_earthquake, hc, except_bind_ok, hm, except_bind_ok,
      hv, except_bind_ok]; rfl⟩
  · obtain ⟨c, hc⟩ := iloc_isOk (closes data) 0 (by omega)
    exact ⟨_, by rw [detect_volcano, hc, except_bind_ok]; rfl⟩
  · obtain ⟨hi, hhi2⟩ := iloc_isOk (highs data) 0 (by omega)
    obtain ⟨lo, hlo2⟩ := iloc_isOk (lows data) 0 (by omega)
    obtain ⟨c2, hc2⟩ := iloc_isOk (closes data) 1 (by omega)
    exact ⟨_, by rw [detect_lightning, hhi2, except_bind_ok, hlo2, except_bind_ok,
      hc2, except_bind_ok]; rfl⟩

/-- Witness for the amended C4 on the concrete two-bar frame. -/
theorem C4_witness :
    (∃ b, detect_golden_cross twoBarFrame = .ok b) ∧
    (∃ b, detect_earthquake twoBarFrame = .ok b) ∧
    (∃ b, detect_volcano twoBarFrame = .ok b) ∧
    (∃ b, detect_lightning twoBarFrame = .ok b) :=
  C4_two_bars_no_raise twoBarFrame (by norm_num [twoBarFrame])

theorem ewmFrom_dropLast (α : ℚ) : ∀ (prev : ℚ) (l : List ℚ),
    ewmFrom α prev l.dropLast = (ewmFrom α prev l).dropLast
  | _, [] => rfl
  | _, [_] => rfl
  | prev, x :: y :: ys => by
    have ih := ewmFrom_dropLast α ((1 - α) * prev + α * x) (y :: ys)
    simp only [List.dropLast_cons₂, ewmFrom] at ih ⊢
    rw [ih]

theorem ewm_dropLast (α : ℚ) (l : List ℚ) :
    ewm α l.dropLast = (ewm α l).dropLast := by
  cases l with
  | nil => rfl
  | cons x xs =>
    cases xs with
    | nil => rfl
    | cons y ys =>
      have h := ewmFrom_dropLast α x (y :: ys)
      simp only [List.dropLast_cons₂, ewm] at h ⊢
      rw [h]
      simp only [ewmFrom, List.dropLast_cons₂]

theorem iloc_zero_getLast {α : Type} (l : List α) (x : α) :
    iloc l 0 = .ok x ↔ l.getLast? = some x := by
  cases l with
  | nil => simp [iloc]
  | cons a as =>
    rw [List.getLast?_eq_getElem?]
    have hlen : 0 < (a :: as).length := by simp
    rw [iloc, dif_pos hlen, List.getElem?_eq_getElem (by omega)]
    simp [List.get_eq_getElem]

theorem iloc_one_getLast {α : Type} (l : List α) (x : α) :
    iloc l 1 = .ok x ↔ l.dropLast.getLast? = some x := by
  by_cases h2 : 2 ≤ l.length
  · rw [List.getLast?_eq_getElem?]
    rw [iloc, dif_pos (by omega)]
    have hdl : l.dropLast.length = l.length - 1 := List.length_dropLast l
    rw [hdl]
    have hlt : l.length - 1 - 1 < l.dropLast.length := by omega
    rw [List.getElem?_eq_getElem (by omega)]
    rw [List.getElem_dropLast]
    simp [List.get_eq_getElem]
  · rw [iloc, dif_neg (by omega)]
    have : l.dropLast.getLast? = none := by
      have : l.dropLast.length = 0 := by
        rw [List.length_dropLast]
        omega
      rw [List.length_eq_zero] at this
      rw [this]
      rfl
    rw [this]
    simp

/-- Claim C5: on a snapshot with at least two bars the trend-cross detector
never raises, and it triggers iff the fast EMA is at-or-below the slow EMA at
the second-to-last bar (the EMAs of the series without its last bar) and
strictly above it at the last bar; in particular it does not trigger when the
fast EMA is already above the slow EMA at both of the two most recent bars. -/
theorem C5_trend_cross_iff (data : Frame) (h : 2 ≤ data.length) :
    ∃ fp sp fl sl,
      emaLast (2/51) (closes data).dropLast = some fp ∧
      emaLast (2/201) (closes data).dropLast = some sp ∧
      emaLast (2/51) (closes data) = some fl ∧
      emaLast (2/201) (closes data) = some sl ∧
      (detect_golden_cross data = .ok true ↔ (fp ≤ sp ∧ sl < fl)) ∧
      ((sp < fp ∧ sl < fl) → detect_golden_cross data = .ok false) := by
  have hcl : (closes data).length = data.length := by simp [closes]
  have hne50 : ewm (2/51) (closes data) ≠ [] :=
    List.length_pos.mp (by rw [ewm_length]; omega)
  have hne200 : ewm (2/201) (closes data) ≠ [] :=
    List.length_pos.mp (by rw [ewm_length]; omega)
  have hne50p : ewm (2/51) (closes data).dropLast ≠ [] :=
    List.length_pos.mp (by rw [ewm_length, List.length_dropLast]; omega)
  have hne200p : ewm (2/201) (closes data).dropLast ≠ [] :=
    List.length_pos.mp (by rw [ewm_length, List.length_dropLast]; omega)
  obtain ⟨fl, hfl⟩ : ∃ v, (ewm (2/51) (closes data)).getLast? = some v :=
    ⟨_, List.getLast?_eq_getLast_of_ne_nil hne50⟩
  obtain ⟨sl, hsl⟩ : ∃ v, (ewm (2/201) (closes data)).getLast? = some v :=
    ⟨_, List.getLast?_eq_getLast_of_ne_nil hne200⟩
  obtain ⟨fp, hfp⟩ : ∃ v, (ewm (2/51) (closes data).dropLast).getLast? = some v :=
    ⟨_, List.getLast?_eq_getLast_of_ne_nil hne50p⟩
  obtain ⟨sp, hsp⟩ : ∃ v, (ewm (2/201) (closes data).dropLast).getLast? = some v :=
    ⟨_, List.getLast?_eq_getLast_of_ne_nil hne200p⟩
  have hiloc_fl : iloc (ewm (2/51) (closes data)) 0 = .ok fl :=
    (iloc_zero_getLast _ _).mpr hfl
  have hiloc_sl : iloc (ewm (2/201) (closes data)) 0 = .ok sl :=
    (iloc_zero_getLast _ _).mpr hsl
  have hiloc_fp : iloc (ewm (2/51) (closes data)) 1 = .ok fp := by
    rw [iloc_one_getLast, ← ewm_dropLast]
    exact hfp
  have hiloc_sp : iloc (ewm (2/201) (closes data)) 1 = .ok sp := by
    rw [iloc_one_getLast, ← ewm_dropLast]
    exact hsp
  refine ⟨fp, sp, fl, sl, hfp, hsp, hfl, hsl, ?_, ?_⟩
  · rw [detect_golden_cross, hiloc_fl, except_bind_ok, hiloc_sl, except_bind_ok,
      hiloc_fp, except_bind_ok, hiloc_sp, except_bind_ok]
    constructor
    · intro he
      have : (decide (sl < fl) && decide (fp ≤ sp)) = true := by
        exact Except.ok.inj he
      simp only [Bool.and_eq_true, decide_eq_true_eq] at this
      exact ⟨this.2, this.1⟩
    · intro ⟨h1, h2⟩
      have : (decide (sl < fl) && decide (fp ≤ sp)) = true := by
        simp [h1, h2]
      rw [show (pure (decide (sl < fl) && decide (fp ≤ sp)) : Except Unit Bool) =
        .ok (decide (sl < fl) && decide (fp ≤ sp)) from rfl, this]
  · intro ⟨h1, h2⟩
    rw [detect_golden_cross, hiloc_fl, except_bind_ok, hiloc_sl, except_bind_ok,
      hiloc_fp, except_bind_ok, hiloc_sp, except_bind_ok]
    have hale : ¬ (fp ≤ sp) := not_le.mpr h1
    simp [hale, h2]
    rfl

/-- Witness for C5 on the concrete two-bar frame, whose fast EMA crosses
above the slow EMA at the second bar. -/
theorem C5_witness :
    ∃ fp sp fl sl,
      emaLast (2/51) (closes twoBarFrame).dropLast = some fp ∧
      emaLast (2/201) (closes twoBarFrame).dropLast = some sp ∧
      emaLast (2/51) (closes twoBarFrame) = some fl ∧
      emaLast (2/201) (closes twoBarFrame) = some sl ∧
      (detect_golden_cross twoBarFrame = .ok true ↔ (fp ≤ sp ∧ sl < fl)) ∧
      ((sp < fp ∧ sl < fl) → detect_golden_cross twoBarFrame = .ok false) :=
  C5_trend_cross_iff twoBarFrame (by norm_num [twoBarFrame])

/-- Market-data oracle for the C3 scenario in which every fetch succeeds:
symbol "2222.SR" returns the rising two-bar frame, all other symbols return
an empty frame (skipped silently by the sweep). -/
def fetchAllGood : String → Except Unit Frame :=
  fun s => if s = "2222.SR" then .ok twoBarFrame else .ok []

/-- The same oracle except that the first symbol of the universe raises. -/
def fetchFirstBad : String → Except Unit Frame :=
  fun s => if s = "1211.SR" then .error () else fetchAllGood s

theorem detect_golden_cross_twoBar : detect_golden_cross twoBarFrame = .ok true := by
  have h0 : iloc (ewm (2/51) (closes twoBarFrame)) 0 = .ok (53/51) := by
    norm_num [closes, twoBarFrame, ewm, ewmFrom, iloc, List.get]
  have h1 : iloc (ewm (2/201) (closes twoBarFrame)) 0 = .ok (203/201) := by
    norm_num [closes, twoBarFrame, ewm, ewmFrom, iloc, List.get]
  have h2 : iloc (ewm (2/51) (closes twoBarFrame)) 1 = .ok 1 := by
    norm_num [closes, twoBarFrame, ewm, ewmFrom, iloc, List.get]
  have h3 : iloc (ewm (2/201) (closes twoBarFrame)) 1 = .ok 1 := by
    norm_num [closes, twoBarFrame, ewm, ewmFrom, iloc, List.get]
  rw [detect_golden_cross, h0, except_bind_ok, h1, except_bind_ok, h2,
    except_bind_ok, h3, except_bind_ok]
  norm_num
  rfl

theorem detect_earthquake_twoBar : detect_earthquake twoBarFrame = .ok false := by
  have h0 : iloc (closes twoBarFrame) 0 = .ok 2 := by
    norm_num [closes, twoBarFrame, iloc, List.get]
  have h1 : iloc (rollingMax 14 (highs twoBarFrame)) 1 = .ok none := by
    norm_num [highs, twoBarFrame, rollingMax, iloc, List.get, List.range_succ]
  have h2 : iloc (volumes twoBarFrame) 0 = .ok 1 := by
    norm_num [volumes, twoBarFrame, iloc, List.get]
  rw [detect_earthquake, h0, except_bind_ok, h1, except_bind_ok, h2, except_bind_ok]
  norm_num [gtO]
  rfl

theorem detect_volcano_twoBar : detect_volcano twoBarFrame = .ok true := by
  have h0 : iloc (closes twoBarFrame) 0 = .ok 2 := by
    norm_num [closes, twoBarFrame, iloc, List.get]
  rw [detect_volcano, h0, except_bind_ok]
  norm_num [listMax, listMin, highs, lows, twoBarFrame]
  rfl

theorem detect_lightning_twoBar : detect_lightning twoBarFrame = .ok true := by
  have h0 : iloc (highs twoBarFrame) 0 = .ok 2 := by
    norm_num [highs, twoBarFrame, iloc, List.get]
  have h1 : iloc (lows twoBarFrame) 0 = .ok 1 := by
    norm_num [lows, twoBarFrame, iloc, List.get]
  have h2 : iloc (closes twoBarFrame) 1 = .ok 1 := by
    norm_num [closes, twoBarFrame, iloc, List.get]
  rw [detect_lightning, h0, except_bind_ok, h1, except_bind_ok, h2, except_bind_ok]
  norm_num
  rfl

theorem create_opportunity_subset (symbol strategy : String) (data : Frame)
    (st : List Opportunity) : st ⊆ create_opportunity symbol strategy data st := by
  unfold create_opportunity
  split
  · exact List.subset_append_left _ _
  · exact fun _ h => h

/-- Counterexample to claim C3 as stated: `check_opportunities` wraps its
whole symbol loop in a single `try/except`, so a raised download error for the
first symbol aborts the sweep — the remaining symbols are not evaluated.
With every fetch succeeding, symbol "2222.SR" produces an opportunity; with
the first symbol raising (and every other symbol unchanged), it produces
none. -/
theorem C3_counterexample :
    check_opportunities fetchFirstBad [] = [] ∧
    ∃ o ∈ check_opportunities fetchAllGood [], o.symbol = "2222.SR" := by
  constructor
  · simp [check_opportunities, check_opportunities_go, STOCK_SYMBOLS, fetchFirstBad]
  · have h1 : iloc (closes twoBarFrame) 0 = .ok 2 := by
      norm_num [closes, twoBarFrame, iloc, List.get]
    have h2 : calculate_stop_loss "golden" twoBarFrame = .ok (1 * (98/100)) := by
      simp [calculate_stop_loss, lows, twoBarFrame, iloc, except_bind_ok]
    have hcreate : create_opportunity "2222.SR" "golden" twoBarFrame [] =
        [⟨"2222.SR", "golden", 2, calculate_targets "golden" 2,
          1 * (98/100), 0, "active"⟩] := by
      simp [create_opportunity, h1, h2]
    have hne : twoBarFrame.isEmpty = false := rfl
    have hrun : check_opportunities fetchAllGood [] =
        create_opportunity "2222.SR" "lightning" twoBarFrame
          (create_opportunity "2222.SR" "volcano" twoBarFrame
            (create_opportunity "2222.SR" "golden" twoBarFrame [])) := by
      simp [check_opportunities, check_opportunities_go, STOCK_SYMBOLS, fetchAllGood,
        sweepSymbol, detect_golden_cross_twoBar, detect_earthquake_twoBar,
        detect_volcano_twoBar, detect_lightning_twoBar, hne]
    refine ⟨⟨"2222.SR", "golden", 2, calculate_targets "golden" 2,
      1 * (98/100), 0, "active"⟩, ?_, rfl⟩
    rw [hrun]
    apply create_opportunity_subset
    apply create_opportunity_subset
    rw [hcreate]
    exact List.mem_singleton.mpr rfl

/-- Claim C3 amended: the two sweeps differ.  In `get_top_movers` the
`try/except` sits inside the per-symbol loop, so any symbol whose own fetch
succeeds (with at least two rows and a nonzero first open) contributes its
entry to the ranking regardless of failures for any other symbol; but in
`check_opportunities` the `try/except` wraps the whole loop, so a raised
fetch error for one symbol terminates the sweep and the remaining symbols of
that sweep are neither fetched nor evaluated. -/
theorem C3_per_symbol_tolerance :
    (∀ (symbols : List String) (fetch : String → Except Unit Frame)
        (s : String) (p : String × ℚ),
        s ∈ symbols → moverFor fetch s = some p →
        p ∈ get_top_movers_with symbols fetch) ∧
    (∀ (fetch : String → Except Unit Frame) (s : String) (rest : List String)
        (st : List Opportunity), fetch s = .error () →
        check_opportunities_go fetch (s :: rest) st = st) := by
  constructor
  · intro symbols fetch s p hs hp
    have hmem : p ∈ symbols.filterMap (moverFor fetch) :=
      List.mem_filterMap.mpr ⟨s, hs, hp⟩
    unfold get_top_movers_with
    exact (List.mem_insertionSort _).mpr hmem
  · intro fetch s rest st h
    unfold check_opportunities_go
    rw [h]

/-- Witness for the amended C3: with the first symbol raising, the second
symbol still reaches the top-movers ranking, while the same oracle makes the
detection sweep return its input store unchanged. -/
theorem C3_witness :
    ("2222.SR", (100 : ℚ)) ∈
      get_top_movers_with ["1211.SR", "2222.SR"] fetchFirstBad ∧
    check_opportunities_go fetchFirstBad ["1211.SR", "2222.SR"] [] = [] := by
  constructor
  · refine C3_per_symbol_tolerance.1 ["1211.SR", "2222.SR"] fetchFirstBad
      "2222.SR" _ (by simp) ?_
    have h1 : iloc (closes twoBarFrame) 0 = .ok 2 := by
      norm_num [closes, twoBarFrame, iloc, List.get]
    have hrd : round2 ((2 - 1) * 100) = 100 := by
      norm_num [round2, roundHalfEven]
    simp [moverFor, fetchFirstBad, fetchAllGood, twoBarFrame, opens] at h1 ⊢
    simp [iloc, closes, h1, hrd]
  · exact C3_per_symbol_tolerance.2 fetchFirstBad "1211.SR" ["2222.SR"] []
      (by simp [fetchFirstBad])

/-- The ordering claimed for `top_movers` output: descending by percent
change, ties broken by ascending symbol. -/
def movOrder (a b : String × ℚ) : Prop := b.2 < a.2 ∨ (a.2 = b.2 ∧ a.1 < b.1)

theorem moverFor_fst {fetch : String → Except Unit Frame} {s : String}
    {p : String × ℚ} (h : moverFor fetch s = some p) : p.1 = s := by
  unfold moverFor at h
  split at h
  · exact absurd h (by simp)
  · split at h
    · exact absurd h (by simp)
    · split at h
      · split at h
        · exact absurd h (by simp)
        · rw [Option.some.injEq] at h
          rw [← h]
      · exact absurd h (by simp)

theorem movers_pairwise (symbols : List String)
    (fetch : String → Except Unit Frame)
    (hs : symbols.Pairwise (fun a b => a < b)) :
    (symbols.filterMap (moverFor fetch)).Pairwise (fun a b => a.1 < b.1) := by
  rw [List.pairwise_filterMap]
  refine hs.imp ?_
  intro a b hab p hp q hq
  rw [moverFor_fst hp, moverFor_fst hq]
  exact hab

theorem orderedInsert_movOrder (a : String × ℚ) (l : List (String × ℚ))
    (hl : l.Pairwise movOrder) (ha : ∀ y ∈ l, a.1 < y.1) :
    (l.orderedInsert (fun x y : String × ℚ => y.2 ≤ x.2) a).Pairwise movOrder := by
  induction l with
  | nil => simp [List.orderedInsert]
  | cons y ys ih =>
    rw [List.orderedInsert]
    by_cases hr : (y.2 ≤ a.2)
    · rw [if_pos hr]
      rw [List.pairwise_cons]
      refine ⟨?_, hl⟩
      intro z hz
      rcases List.mem_cons.mp hz with rfl | hz'
      · rcases lt_or_eq_of_le hr with h | h
        · exact Or.inl h
        · exact Or.inr ⟨h.symm, ha z (List.mem_cons_self _ _)⟩
      · have hyz : movOrder y z := List.rel_of_pairwise_cons hl hz'
        have hzy : z.2 ≤ y.2 := by
          rcases hyz with h | ⟨h, _⟩
          · exact le_of_lt h
          · exact le_of_eq h.symm
        rcases lt_or_eq_of_le (le_trans hzy hr) with h | h
        · exact Or.inl h
        · exact Or.inr ⟨h.symm, ha z (List.mem_cons_of_mem _ hz')⟩
    · rw [if_neg hr]
      push_neg at hr
      rw [List.pairwise_cons]
      constructor
      · intro z hz
        rcases (List.mem_orderedInsert _).mp hz with rfl | hz'
        · exact Or.inl hr
        · exact List.rel_of_pairwise_cons hl hz'
      · exact ih (List.Pairwise.of_cons hl)
          (fun y' hy' => ha y' (List.mem_cons_of_mem _ hy'))

theorem insertionSort_movOrder (l : List (String × ℚ))
    (hl : l.Pairwise (fun a b => a.1 < b.1)) :
    (l.insertionSort (fun x y : String × ℚ => y.2 ≤ x.2)).Pairwise movOrder := by
  induction l with
  | nil => simp [List.insertionSort]
  | cons a l ih =>
    rw [List.insertionSort]
    refine orderedInsert_movOrder a _ (ih (List.Pairwise.of_cons hl)) ?_
    intro y hy
    exact List.rel_of_pairwise_cons hl ((List.mem_insertionSort _).mp hy)

/-- Claim C6: over any universe of distinct, lexically ascending symbols (as
the hard-coded `STOCK_SYMBOLS` is), the top-movers output is sorted
descending by percent change with ties broken by ascending symbol (Python's
stable sort preserves the universe's lexical order inside each tie class);
the report's "bottom 5" is the last-five suffix of that same sorted list; and
when at least 10 entries exist, the "top 5" and "bottom 5" slices share no
entry. -/
theorem C6_top_movers_sorted (symbols : List String)
    (fetch : String → Except Unit Frame)
    (hs : symbols.Pairwise (fun a b => a < b)) :
    (get_top_movers_with symbols fetch).Pairwise movOrder ∧
    daily_report_bottom (get_top_movers_with symbols fetch) <:+
      get_top_movers_with symbols fetch ∧
    (10 ≤ (get_top_movers_with symbols fetch).length →
      List.Disjoint (daily_report_top (get_top_movers_with symbols fetch))
        (daily_report_bottom (get_top_movers_with symbols fetch))) ∧
    (get_top_movers fetch).Pairwise movOrder ∧
    daily_report_bottom (get_top_movers fetch) <:+ get_top_movers fetch := by
  have hstock : STOCK_SYMBOLS.Pairwise (fun a b => a < b) := by
    simp [STOCK_SYMBOLS, List.pairwise_cons]
    decide
  have hp : (get_top_movers_with symbols fetch).Pairwise movOrder :=
    insertionSort_movOrder _ (movers_pairwise symbols fetch hs)
  refine ⟨hp, List.drop_suffix _ _, fun h10 => ?_,
    insertionSort_movOrder _ (movers_pairwise STOCK_SYMBOLS fetch hstock),
    List.drop_suffix _ _⟩
  have hnd : (get_top_movers_with symbols fetch).Nodup := by
    refine hp.imp ?_
    intro a b hab
    rcases hab with h | ⟨h1, h2⟩
    · intro he
      rw [he] at h
      exact lt_irrefl _ h
    · intro he
      rw [he] at h2
      exact lt_irrefl _ h2
  exact List.disjoint_take_drop hnd (by omega)

/-- Witness for C6: ten distinct ascending symbols, every fetch succeeding,
so the ranking has ten (tied) entries and both slices are populated. -/
theorem C6_witness :
    (get_top_movers_with ["A", "B", "C", "D", "E", "F", "G", "H", "I", "J"]
        (fun _ => .ok twoBarFrame)).Pairwise movOrder ∧
    daily_report_bottom
        (get_top_movers_with ["A", "B", "C", "D", "E", "F", "G", "H", "I", "J"]
          (fun _ => .ok twoBarFrame)) <:+
      get_top_movers_with ["A", "B", "C", "D", "E", "F", "G", "H", "I", "J"]
        (fun _ => .ok twoBarFrame) ∧
    (10 ≤ (get_top_movers_with ["A", "B", "C", "D", "E", "F", "G", "H", "I", "J"]
        (fun _ => .ok twoBarFrame)).length →
      List.Disjoint
        (daily_report_top
          (get_top_movers_with ["A", "B", "C", "D", "E", "F", "G", "H", "I", "J"]
            (fun _ => .ok twoBarFrame)))
        (daily_report_bottom
          (get_top_movers_with ["A", "B", "C", "D", "E", "F", "G", "H", "I", "J"]
            (fun _ => .ok twoBarFrame)))) ∧
    (get_top_movers (fun _ => .ok twoBarFrame)).Pairwise movOrder ∧
    daily_report_bottom (get_top_movers (fun _ => .ok twoBarFrame)) <:+
      get_top_movers (fun _ => .ok twoBarFrame) :=
  C6_top_movers_sorted ["A", "B", "C", "D", "E", "F", "G", "H", "I", "J"]
    (fun _ => .ok twoBarFrame) (by simp [List.pairwise_cons]; decide)
